import Mathlib

/-!
Shallow embedding of `skmob/models/gravity.py` (the scikit-mobility Gravity
model) and proofs about it.

Numbers.  The Python code computes with numpy floating point.  We model the
float domain as an idealized extended-rational type `F` with `nan`, `+inf`
and `-inf`, mirroring numpy's special-value rules for the operations the
source uses (`*`, `/`, unary `-`, `np.power`, `np.exp`, `np.log`, `np.sum`).
Transcendental functions (`np.exp`, `np.log`, and `np.power` on a positive
base with a non-integer exponent) take irrational values; no property proved
here depends on those finite values, so they are abstracted as a parameter
record `RF` whose fields stand for the corresponding real functions
restricted to finite arguments.  The special values are produced by the
wrappers `expF`, `logF` and `powQ` below, following numpy's conventions.

External collaborators of the source file — the geodesic distance function
`gislib.getDistance`, pandas/GeoDataFrame column access, the statsmodels GLM
solver, and the `FlowDataFrame` constructor — are not part of
`src/skmob/models/gravity.py`; they enter the model as parameters
(`dist`, the fields of `Tessellation`, `solver`), as the specification
describes them (opaque great-circle distance, tabular columns, black-box
regression solver).
-/

namespace Skmob

/-- Idealized floating-point value: a finite rational, `+∞`, `-∞`, or NaN.
Equality of `F` values is structural (so `nan = nan` holds in the model;
we never rely on IEEE `nan ≠ nan` comparison semantics). -/
inductive F where
  | fin : ℚ → F
  | pinf : F
  | ninf : F
  | nan : F
deriving DecidableEq, Repr

/-- `np.isnan` on a single value. -/
def F.isnan : F → Bool
  | .nan => true
  | _ => false

/-- `np.isinf` on a single value (true for both infinities). -/
def F.isinf : F → Bool
  | .pinf => true
  | .ninf => true
  | _ => false

/-- A value is finite when it is neither NaN nor infinite. -/
def F.isfinite : F → Bool
  | .fin _ => true
  | _ => false

/-- Floating-point multiplication (numpy semantics: NaN propagates,
`±∞ * 0 = NaN`, otherwise signs behave as usual). -/
def mulF : F → F → F
  | .nan, _ => .nan
  | _, .nan => .nan
  | .fin a, .fin b => .fin (a * b)
  | .fin a, .pinf => if 0 < a then .pinf else if a < 0 then .ninf else .nan
  | .fin a, .ninf => if 0 < a then .ninf else if a < 0 then .pinf else .nan
  | .pinf, .fin b => if 0 < b then .pinf else if b < 0 then .ninf else .nan
  | .ninf, .fin b => if 0 < b then .ninf else if b < 0 then .pinf else .nan
  | .pinf, .pinf => .pinf
  | .pinf, .ninf => .ninf
  | .ninf, .pinf => .ninf
  | .ninf, .ninf => .pinf

/-- Floating-point addition (numpy semantics: NaN propagates,
`+∞ + -∞ = NaN`). -/
def addF : F → F → F
  | .nan, _ => .nan
  | _, .nan => .nan
  | .fin a, .fin b => .fin (a + b)
  | .fin _, .pinf => .pinf
  | .fin _, .ninf => .ninf
  | .pinf, .fin _ => .pinf
  | .ninf, .fin _ => .ninf
  | .pinf, .pinf => .pinf
  | .pinf, .ninf => .nan
  | .ninf, .pinf => .nan
  | .ninf, .ninf => .ninf

/-- Floating-point division (numpy semantics: NaN propagates, `0/0 = NaN`,
`x/0 = ±∞` for `x ≠ 0` (numpy's zero is `+0`), `x/±∞ = 0` for finite `x`,
`±∞/±∞ = NaN`). -/
def divF : F → F → F
  | .nan, _ => .nan
  | _, .nan => .nan
  | .fin a, .fin b =>
    if b = 0 then (if a = 0 then .nan else if 0 < a then .pinf else .ninf)
    else .fin (a / b)
  | .fin _, .pinf => .fin 0
  | .fin _, .ninf => .fin 0
  | .pinf, .fin b => if b < 0 then .ninf else .pinf
  | .ninf, .fin b => if b < 0 then .pinf else .ninf
  | .pinf, .pinf => .nan
  | .pinf, .ninf => .nan
  | .ninf, .pinf => .nan
  | .ninf, .ninf => .nan

/-- Floating-point negation. -/
def negF : F → F
  | .fin a => .fin (-a)
  | .pinf => .ninf
  | .ninf => .pinf
  | .nan => .nan

/-- Abstract real-valued functions backing `np.exp`, `np.log` and
`np.power` on finite arguments: `rexp q` stands for `e^q`, `rlog q` for
`ln q` (only consulted for `q > 0`), and `rpow x e` for `x^e` (only
consulted for `x > 0` and non-integer `e`).  Their concrete values are
irrelevant to every property proved in this file. -/
structure RF where
  rexp : ℚ → ℚ
  rlog : ℚ → ℚ
  rpow : ℚ → ℚ → ℚ

/-- `np.exp` lifted to `F` (finite input gives a finite value;
`exp(-∞) = 0`, `exp(+∞) = +∞`, NaN propagates). -/
def expF (rexp : ℚ → ℚ) : F → F
  | .nan => .nan
  | .pinf => .pinf
  | .ninf => .fin 0
  | .fin q => .fin (rexp q)

/-- `np.log` lifted to `F`: `log` of a positive finite value is finite,
`log 0 = -∞`, `log` of a negative value is NaN, `log(+∞) = +∞`,
`log(-∞) = NaN`, NaN propagates. -/
def logF (rlog : ℚ → ℚ) : F → F
  | .nan => .nan
  | .pinf => .pinf
  | .ninf => .nan
  | .fin q => if 0 < q then .fin (rlog q) else if q = 0 then .ninf else .nan

/-- Rational power with a natural exponent (spelled out recursively so that
concrete instances evaluate by kernel reduction). -/
def npowQ (x : ℚ) : ℕ → ℚ
  | 0 => 1
  | k + 1 => x * npowQ x k

/-- Rational power with an integer exponent (`x ≠ 0` when the exponent is
negative; the caller `powQ` guards the `0` base). -/
def zpowQ (x : ℚ) (e : ℤ) : ℚ :=
  if e < 0 then 1 / npowQ x (-e).toNat else npowQ x e.toNat

/-- `np.power x e` for finite real `x` and finite real exponent `e`
(numpy semantics): for an integer exponent the exact rational power, with
`0` raised to a negative exponent giving `+∞`; for a non-integer exponent,
a positive base gives a finite (abstract) real power, base `0` gives `0`
for `e > 0` and `+∞` for `e < 0`, and a negative base gives NaN. -/
def powQ (rpow : ℚ → ℚ → ℚ) (x e : ℚ) : F :=
  if e.den = 1 then
    if x = 0 ∧ e < 0 then .pinf else .fin (zpowQ x e.num)
  else if 0 < x then .fin (rpow x e)
  else if x = 0 then (if 0 < e then .fin 0 else .pinf)
  else .nan

/-- `exponential_deterrence_func(x, R) = np.exp(-x / R)` from the source,
applied to a finite distance `x` and finite parameter `R` (division and
`exp` follow the numpy special-value rules, so `R = 0` yields
`exp(∓∞)`). -/
def exponential_deterrence_func (rf : RF) (x R : ℚ) : F :=
  expF rf.rexp (negF (divF (F.fin x) (F.fin R)))

/-- `powerlaw_deterrence_func(x, exponent) = np.power(x, exponent)` from the
source. -/
def powerlaw_deterrence_func (rf : RF) (x exponent : ℚ) : F :=
  powQ rf.rpow x exponent

/-- `ci(i, number_locs)` from the source: a list of `number_locs` zeros with
a `1.` at position `i` (the one-hot block encoding the per-origin
normalization constraint of the Poisson reformulation). -/
def ci (i number_locs : ℕ) : List F :=
  (List.range number_locs).map (fun k => if k = i then F.fin 1 else F.fin 0)

/-- `np.sum` over a list of floating-point values. -/
def sumF (l : List F) : F := l.foldr addF (F.fin 0)

/-- Column sum `np.sum(M, axis=0) [j]` of a square matrix. -/
def colSumF {n : ℕ} (M : Fin n → Fin n → F) (j : Fin n) : F :=
  sumF (List.ofFn (fun i => M i j))

/-- Row sum `np.sum(M, axis=1) [i]` of a square matrix. -/
def rowSumF {n : ℕ} (M : Fin n → Fin n → F) (i : Fin n) : F :=
  sumF (List.ofFn (fun j => M i j))

/-- Grand sum `np.sum(M)` of a square matrix. -/
def totalSumF {n : ℕ} (M : Fin n → Fin n → F) : F :=
  sumF (List.ofFn (fun i => rowSumF M i))

/-- The spatial tessellation as `generate`/`fit` read it: per location a
tile identifier, a centroid `(lat, lng)` (obtained in the source from
`utils.get_geom_centroid`, an external helper), the relevance column after
`.fillna(0)`, and the total-outflow column after `.fillna(0)` — the latter
wrapped in `Option` because its very presence is checked by `generate`. -/
structure Tessellation (n : ℕ) where
  tile_id : Fin n → ℕ
  centroid : Fin n → ℚ × ℚ
  relevance : Fin n → ℚ
  tot_outflows : Option (Fin n → ℚ)

/-- The per-pair iterations of `compute_distance_matrix`'s double loop
`for id_i in origins: for id_j in range(id_i + 1, n)`, in execution order.
Each element `(i, j)` (always with `i < j`) is one computation of the
distance of the unordered pair `{i, j}`, stored symmetrically. -/
def pairWrites (n : ℕ) (origins : List (Fin n)) : List (Fin n × Fin n) :=
  origins.flatMap
    (fun i => ((List.finRange n).filter (fun j => i < j)).map (fun j => (i, j)))

/-- How many times the double loop of `compute_distance_matrix` computes and
stores the distance of the unordered pair `{a, b}`. -/
def pairWriteCount (n : ℕ) (origins : List (Fin n)) (a b : Fin n) : ℕ :=
  (pairWrites n origins).count (a, b) + (pairWrites n origins).count (b, a)

/-- `compute_distance_matrix(spatial_tessellation, origins)` from the
source: start from `np.zeros((n, n))` and, for every loop iteration
`(id_i, id_j)`, store `distfunc(coords[id_i], coords[id_j])` at both
`(id_i, id_j)` and `(id_j, id_i)`.  The geodesic distance function
`distfunc = gislib.getDistance` is external and enters as the parameter
`dist`. -/
def compute_distance_matrix (dist : ℚ × ℚ → ℚ × ℚ → ℚ) {n : ℕ}
    (tess : Tessellation n) (origins : List (Fin n)) : Fin n → Fin n → ℚ :=
  (pairWrites n origins).foldl
    (fun D p =>
      fun a b =>
        if (a = p.1 ∧ b = p.2) ∨ (a = p.2 ∧ b = p.1) then
          dist (tess.centroid p.1) (tess.centroid p.2)
        else D a b)
    (fun _ _ => 0)

/-- The deterrence function resolved by `Gravity.__init__` (the source
stores one of the two function objects in `self._deterrence_func`). -/
inductive DetFunc where
  | power_law
  | exponential
deriving DecidableEq, Repr

/-- The state of a `Gravity` instance: the `self._*` attributes set by
`__init__` (Python's leading underscores are dropped), plus every attribute
that other methods create on `self` and that therefore survives a call —
`_tile_id_column` (set by `generate`), and `lats_lngs`, `weights`,
`tileid2index`, `X`, `y` (set by `fit`; `X`/`y` are deleted again at the
end of `fit`).  `tileid2index` is modelled as the list of tile ids in
tessellation order (the dict maps an id to its position); `X`/`y` are
renamed `Xattr`/`yattr`.  Attributes that are not yet set are `none`. -/
structure Gravity where
  name : String
  deterrence_func_type : String
  deterrence_func_args : List ℚ
  origin_exp : ℚ
  destination_exp : ℚ
  gravity_type : String
  deterrence_func : DetFunc
  tile_id_column : Option String
  lats_lngs : Option (List (ℚ × ℚ))
  weights : Option (List ℚ)
  tileid2index : Option (List ℕ)
  Xattr : Option (List (List F))
  yattr : Option (List ℚ)
deriving DecidableEq, Repr

/-- `Gravity.__init__`: stores the configuration and resolves the
deterrence function; an unknown `deterrence_func_type` prints a warning
(a side effect outside this functional model) and falls back to the
power-law deterrence function instead of raising. -/
def Gravity.init (nm deterrence_func_type : String) (deterrence_func_args : List ℚ)
    (origin_exp destination_exp : ℚ) (gravity_type : String) : Gravity :=
  { name := nm
    deterrence_func_type := deterrence_func_type
    deterrence_func_args := deterrence_func_args
    origin_exp := origin_exp
    destination_exp := destination_exp
    gravity_type := gravity_type
    deterrence_func :=
      if deterrence_func_type = "power_law" then DetFunc.power_law
      else if deterrence_func_type = "exponential" then DetFunc.exponential
      else DetFunc.power_law
    tile_id_column := none
    lats_lngs := none
    weights := none
    tileid2index := none
    Xattr := none
    yattr := none }

/-- `self._deterrence_func(x, *self._deterrence_func_args)`: the source
splats the stored argument list; every call site passes exactly one
argument, modelled by the list head. -/
def Gravity.deterrence (g : Gravity) (rf : RF) (x : ℚ) : F :=
  match g.deterrence_func with
  | DetFunc.power_law => powerlaw_deterrence_func rf x (g.deterrence_func_args.headD 0)
  | DetFunc.exponential => exponential_deterrence_func rf x (g.deterrence_func_args.headD 0)

/-- `np.putmask(M, np.isnan(M), 0.0)`: replace every NaN entry by `0.0`. -/
def putmask_nan {n : ℕ} (M : Fin n → Fin n → F) : Fin n → Fin n → F :=
  fun i j => if (M i j).isnan then F.fin 0 else M i j

/-- `np.putmask(M, np.isinf(M), 0.0)`: replace every infinite entry by
`0.0`. -/
def putmask_inf {n : ℕ} (M : Fin n → Fin n → F) : Fin n → Fin n → F :=
  fun i j => if (M i j).isinf then F.fin 0 else M i j

/-- Replacement of a NaN or infinite value by `0.0` (the combined effect of
the two `putmask` calls on one entry of the finished matrix). -/
def cleanF (x : F) : F := if x.isnan || x.isinf then F.fin 0 else x

/-- `Gravity.compute_gravity_score(distance_matrix, relevances_orig,
relevances_dest)` from the source: apply the deterrence function
elementwise to the distance matrix, multiply by
`relevances_dest ** destination_exp` (broadcast over columns) and by
`np.expand_dims(relevances_orig ** origin_exp, axis=1)` (broadcast over
rows), then put the NaN entries and the infinite entries of the completed
matrix to `0.0`. -/
def Gravity.compute_gravity_score (g : Gravity) (rf : RF) {n : ℕ}
    (distance_matrix : Fin n → Fin n → ℚ)
    (relevances_orig relevances_dest : Fin n → ℚ) : Fin n → Fin n → F :=
  let t1 : Fin n → Fin n → F := fun i j => g.deterrence rf (distance_matrix i j)
  let t2 : Fin n → Fin n → F := fun i j =>
    mulF (mulF (t1 i j) (powQ rf.rpow (relevances_dest j) g.destination_exp))
      (powQ rf.rpow (relevances_orig i) g.origin_exp)
  putmask_inf (putmask_nan t2)

/-- The fallback on the requested output format performed by `generate`: an
unknown format prints a warning (a side effect outside this model) and is
replaced by `"flows"`. -/
def effective_out_format (out_format : String) : String :=
  if out_format = "flows" ∨ out_format = "probabilities" then out_format else "flows"

/-- What `generate` returns (besides the mutated object state).  The
multinomial draw is the single stochastic step of the system, so for the
`flows` output the model stops at the sampler's inputs: the normalized
probability matrix and the total-outflow vector it is drawn with.  For the
`probabilities` output the normalized matrix itself is returned (the source
then converts it to a `FlowDataFrame` of its positive entries via the
external `_from_matrix_to_flowdf`). -/
inductive GenReturn (n : ℕ) where
  | flowsDraw (probs : Fin n → Fin n → F) (tot : Fin n → ℚ)
  | probs (m : Fin n → Fin n → F)

/-- The computational part of `Gravity.generate` (everything after the
assignment `self._tile_id_column = tile_id_column`): resolve the output
format with a fallback to `"flows"`, raise `KeyError` when the resolved
format is `"flows"` and the tessellation has no total-outflow column
(before any distance matrix or score is computed), otherwise build the
distance matrix over all locations, compute the gravity scores with the
relevance vector as both origin and destination relevances, and normalize
per regime: globally constrained divides by the grand sum, singly
constrained divides by the column sums and transposes. -/
def Gravity.generate_out (g : Gravity) (rf : RF) (dist : ℚ × ℚ → ℚ × ℚ → ℚ)
    {n : ℕ} (tess : Tessellation n) (out_format : String) :
    Except String (GenReturn n) :=
  let fmt := effective_out_format out_format
  if fmt = "flows" ∧ tess.tot_outflows = none then
    Except.error "The column 'tot_outflows' must be present in the tessellation."
  else
    let relevances := tess.relevance
    -- only read in the `flows` branches, where presence was checked above
    let tot_outflows := tess.tot_outflows.getD (fun _ => 0)
    let origins := List.finRange n
    let distance_matrix := compute_distance_matrix dist tess origins
    let trip_probs_matrix := g.compute_gravity_score rf distance_matrix relevances relevances
    if g.gravity_type = "globally constrained" then
      let normalized := fun i j => divF (trip_probs_matrix i j) (totalSumF trip_probs_matrix)
      if fmt = "flows" then Except.ok (GenReturn.flowsDraw normalized tot_outflows)
      else Except.ok (GenReturn.probs normalized)
    else
      -- np.transpose(trip_probs_matrix / np.sum(trip_probs_matrix, axis=0))
      let normalized := fun i j => divF (trip_probs_matrix j i) (colSumF trip_probs_matrix i)
      if fmt = "flows" then Except.ok (GenReturn.flowsDraw normalized tot_outflows)
      else Except.ok (GenReturn.probs normalized)

/-- `Gravity.generate`: its first real statement stores the tile-id column
name on `self` (`self._tile_id_column = tile_id_column`), an attribute that
survives the call; the rest of the method neither reads nor writes any
other attribute of `self` that outlives the call.  Returns the new object
state together with the computed result. -/
def Gravity.generate (g : Gravity) (rf : RF) (dist : ℚ × ℚ → ℚ × ℚ → ℚ)
    {n : ℕ} (tess : Tessellation n) (tile_id_column : String)
    (out_format : String) : Gravity × Except String (GenReturn n) :=
  ({ g with tile_id_column := some tile_id_column },
    g.generate_out rf dist tess out_format)

/-- The `probabilities` matrix carried by a `generate` result, when there
is one. -/
def probsMatrix {n : ℕ} (r : Gravity × Except String (GenReturn n)) :
    Option (Fin n → Fin n → F) :=
  match r.2 with
  | Except.ok (GenReturn.probs m) => some m
  | _ => none

/-- One record of the observed flow table: origin tile id, destination tile
id, flow count. -/
structure FlowRecord where
  origin : ℕ
  destination : ℕ
  flow : ℚ
deriving DecidableEq, Repr

/-- The `self` attributes that `fit`/`_update_training_set` work with:
`lats_lngs` and `weights` (per-location centroid and relevance arrays),
`tiles` (the tessellation's tile ids in order — `tileid2index` maps an id
to its position), and the accumulating design matrix `X` and response
vector `y`. -/
structure FitState where
  lats_lngs : List (ℚ × ℚ)
  weights : List ℚ
  tiles : List ℕ
  X : List (List F)
  y : List ℚ
deriving DecidableEq, Repr

/-- `self.tileid2index[tid]`: the index of tile id `tid`.  The dict is
built as `dict([(tileid, i) for i, tileid in enumerate(...)])`, so a
duplicated tile id maps to its last position; an absent id raises
`KeyError`, modelled as `none`. -/
def dictLookup (tiles : List ℕ) (tid : ℕ) : Option ℕ :=
  ((tiles.enum.filter (fun p => p.2 = tid)).getLast?).map (fun p => p.1)

/-- `Gravity._update_training_set(flow_example)` from the source: skip the
record (returning the state unchanged, no exception) when origin equals
destination, when either id is absent from `tileid2index` (the `KeyError`
handlers), or when the destination weight is `≤ 0`; otherwise append one
design-matrix row — `[1] + sc_vars + [log(weight_destination), term]`
where `sc_vars` is `[log(weight_origin)]` for the globally constrained
regime and the one-hot `ci(index, len(tileid2index))` otherwise, and
`term` is `-dist` when `deterrence_func_type == "exponential"` and
`log(dist)` otherwise — and append the flow count to `y`. -/
def update_training_set (g : Gravity) (rf : RF) (dist : ℚ × ℚ → ℚ × ℚ → ℚ)
    (st : FitState) (rec : FlowRecord) : FitState :=
  if rec.origin = rec.destination then st
  else
    match dictLookup st.tiles rec.origin with
    | none => st
    | some io =>
      match dictLookup st.tiles rec.destination with
      | none => st
      | some idst =>
        let coords_origin := st.lats_lngs.getD io (0, 0)
        let coords_destination := st.lats_lngs.getD idst (0, 0)
        let weight_origin := st.weights.getD io 0
        let weight_destination := st.weights.getD idst 0
        if weight_destination ≤ 0 then st
        else
          let d := dist coords_origin coords_destination
          let sc_vars : List F :=
            if g.gravity_type = "globally constrained" then
              [logF rf.rlog (F.fin weight_origin)]
            else ci io st.tiles.length
          let row : List F :=
            if g.deterrence_func_type = "exponential" then
              [F.fin 1] ++ sc_vars ++ [logF rf.rlog (F.fin weight_destination), F.fin (-d)]
            else
              [F.fin 1] ++ sc_vars ++ [logF rf.rlog (F.fin weight_destination),
                logF rf.rlog (F.fin d)]
          { st with X := st.X ++ [row], y := st.y ++ [rec.flow] }

/-- The calibration arrays built by `fit` before the GLM call: the initial
state holds the tessellation-derived arrays and empty `X`, `y`, and the flow
table is folded through `_update_training_set` in table order. -/
def Gravity.buildTraining (g : Gravity) (rf : RF) (dist : ℚ × ℚ → ℚ × ℚ → ℚ)
    {n : ℕ} (tess : Tessellation n) (flows : List FlowRecord) : FitState :=
  flows.foldl (fun s r => update_training_set g rf dist s r)
    { lats_lngs := List.ofFn tess.centroid
      weights := List.ofFn tess.relevance
      tiles := List.ofFn tess.tile_id
      X := []
      y := [] }

/-- `Gravity.fit(flow_df)` from the source: store `lats_lngs`, `weights`
and `tileid2index` on `self`, build `X`/`y` from the flow table, hand them
to the external GLM solver (a black-box Poisson regression returning the
fitted coefficient vector, modelled by the parameter `solver`), update the
configuration by coefficient position according to the regime
(`params[1..3]` for globally constrained; origin exponent fixed at `1.`,
`params[-2]` and `params[-1]` for singly constrained), and finally delete
`self.X` and `self.y`. -/
def Gravity.fit (g : Gravity) (rf : RF) (dist : ℚ × ℚ → ℚ × ℚ → ℚ)
    {n : ℕ} (tess : Tessellation n) (flows : List FlowRecord)
    (solver : List (List F) → List ℚ → List ℚ) : Gravity :=
  let st := g.buildTraining rf dist tess flows
  let params := solver st.X st.y
  let g1 :=
    if g.gravity_type = "globally constrained" then
      { g with origin_exp := params.getD 1 0
               destination_exp := params.getD 2 0
               deterrence_func_args := [params.getD 3 0] }
    else
      { g with origin_exp := 1
               destination_exp := params.getD (params.length - 2) 0
               deterrence_func_args := [params.getD (params.length - 1) 0] }
  { g1 with lats_lngs := some (List.ofFn tess.centroid)
            weights := some (List.ofFn tess.relevance)
            tileid2index := some (List.ofFn tess.tile_id)
            Xattr := none
            yattr := none }

/-- The finite value carried by an `F` (0 for the special values); used to
state arithmetic facts about matrices whose entries are known finite. -/
def F.toQ : F → ℚ
  | .fin q => q
  | _ => 0

/-- The raw gravity-score matrix `P` computed inside `generate`: scores of
the distance matrix over all locations, with the tessellation's relevance
vector used as both origin and destination relevances. -/
def generation_score (g : Gravity) (rf : RF) (dist : ℚ × ℚ → ℚ × ℚ → ℚ)
    {n : ℕ} (tess : Tessellation n) : Fin n → Fin n → F :=
  g.compute_gravity_score rf (compute_distance_matrix dist tess (List.finRange n))
    tess.relevance tess.relevance

/-- A concrete instance of the abstracted real functions, used to evaluate
the model on concrete inputs whose arithmetic never reaches the abstracted
finite transcendental values with relevant effect. -/
def rf0 : RF := { rexp := fun q => q, rlog := fun q => q, rpow := fun a _ => a }

/-- A concrete geodesic distance function: distinct points are 1 km apart
(realizable, e.g. three points pairwise 1 km apart on the sphere). -/
def dist0 : ℚ × ℚ → ℚ × ℚ → ℚ := fun p q => if p = q then 0 else 1

/-- Concrete 3-location tessellation with relevances `[1, 2, 4]` and no
total-outflow column. -/
def T1 : Tessellation 3 :=
  { tile_id := fun i => i.val
    centroid := fun i => if i = 0 then (0, 0) else if i = 1 then (0, 1) else (1, 0)
    relevance := fun i => if i = 0 then 1 else if i = 1 then 2 else 4
    tot_outflows := none }

/-- Concrete singly constrained model with power-law deterrence `[-2]`,
origin exponent `1` and destination exponent `0`. -/
def G1 : Gravity := Gravity.init "Gravity model" "power_law" [-2] 1 0 "singly constrained"

/-- Concrete 3-location tessellation with relevances `[0, 1, 1]` (location
0 has relevance zero) and no total-outflow column. -/
def T2 : Tessellation 3 :=
  { tile_id := fun i => i.val
    centroid := fun i => if i = 0 then (0, 0) else if i = 1 then (0, 1) else (1, 0)
    relevance := fun i => if i = 0 then 0 else 1
    tot_outflows := none }

/-- Concrete singly constrained model with the default configuration
(power-law deterrence `[-2]`, both exponents `1`). -/
def G2 : Gravity := Gravity.init "Gravity model" "power_law" [-2] 1 1 "singly constrained"

/-- A concrete black-box regression solver returning fixed coefficients. -/
def solver0 : List (List F) → List ℚ → List ℚ := fun _ _ => [5, 6, 7, 8]

/-- Concrete calibration state: three locations with tile ids
`[10, 11, 12]`, weights `[3, 5, 7]`, empty design matrix. -/
def st0 : FitState :=
  { lats_lngs := [(0, 0), (0, 1), (1, 0)], weights := [3, 5, 7],
    tiles := [10, 11, 12], X := [], y := [] }

/-- Concrete calibration state whose first location has weight `0`. -/
def st1 : FitState :=
  { lats_lngs := [(0, 0), (0, 1), (1, 0)], weights := [0, 5, 7],
    tiles := [10, 11, 12], X := [], y := [] }

/-- Concrete globally constrained model with power-law deterrence. -/
def G3 : Gravity := Gravity.init "Gravity model" "power_law" [-2] 1 1 "globally constrained"

/-! ### Helper lemmas -/

theorem aux_putmask_entry {n : ℕ} (M : Fin n → Fin n → F) (i j : Fin n) :
    putmask_inf (putmask_nan M) i j = cleanF (M i j) := by
  unfold putmask_inf putmask_nan cleanF
  cases M i j <;> simp [F.isnan, F.isinf]

theorem aux_cleanF_isfin (x : F) : (cleanF x).isfinite = true := by
  unfold cleanF
  cases x <;> simp [F.isnan, F.isinf, F.isfinite]

theorem aux_isfin_not_nan_inf (x : F) (h : x.isfinite = true) :
    x.isnan = false ∧ x.isinf = false := by
  cases x <;> simp_all [F.isnan, F.isinf, F.isfinite]

theorem aux_isfin_toQ (x : F) (h : x.isfinite = true) : x = F.fin x.toQ := by
  cases x <;> simp_all [F.isfinite, F.toQ]

theorem aux_score_entry (g : Gravity) (rf : RF) {n : ℕ} (D : Fin n → Fin n → ℚ)
    (ro rd : Fin n → ℚ) (i j : Fin n) :
    g.compute_gravity_score rf D ro rd i j
      = cleanF (mulF (mulF (g.deterrence rf (D i j)) (powQ rf.rpow (rd j) g.destination_exp))
          (powQ rf.rpow (ro i) g.origin_exp)) := by
  unfold Gravity.compute_gravity_score
  exact aux_putmask_entry _ i j

theorem aux_score_isfin (g : Gravity) (rf : RF) {n : ℕ} (D : Fin n → Fin n → ℚ)
    (ro rd : Fin n → ℚ) (i j : Fin n) :
    (g.compute_gravity_score rf D ro rd i j).isfinite = true := by
  rw [aux_score_entry]
  exact aux_cleanF_isfin _

theorem aux_sumF_fin (l : List F) (h : ∀ x ∈ l, x.isfinite = true) :
    sumF l = F.fin ((l.map F.toQ).sum) := by
  induction l with
  | nil => simp [sumF]
  | cons a t ih =>
    have ha : a.isfinite = true := h a (by simp)
    have ht := ih (fun x hx => h x (by simp [hx]))
    obtain ⟨q, rfl⟩ : ∃ q, a = F.fin q := by
      cases a <;> simp_all [F.isfinite]
    show addF (F.fin q) (sumF t) = _
    rw [ht]
    simp [addF, F.toQ]

theorem aux_sum_div (l : List ℚ) (s : ℚ) :
    (l.map (fun q => q / s)).sum = l.sum / s := by
  induction l with
  | nil => simp
  | cons a t ih => simp [ih, add_div]

theorem aux_probs_singly (g : Gravity) (rf : RF) (dist : ℚ × ℚ → ℚ × ℚ → ℚ) {n : ℕ}
    (tess : Tessellation n) (tic : String) (hg : g.gravity_type ≠ "globally constrained") :
    probsMatrix (g.generate rf dist tess tic "probabilities") =
      some (fun i j => divF (generation_score g rf dist tess j i)
        (colSumF (generation_score g rf dist tess) i)) := by
  have hns : ("probabilities" : String) ≠ "flows" := by decide
  unfold Gravity.generate probsMatrix Gravity.generate_out generation_score
  rw [show effective_out_format "probabilities" = "probabilities" from rfl]
  rw [if_neg (fun h => hns h.1), if_neg hg, if_neg hns]

/-! ### Claim theorems -/

/-- C2: `compute_gravity_score(D, relevances_orig, relevances_dest)` returns
the matrix whose `(i, j)` entry is
`deterrence_fn(D[i][j], *deterrence_args) * relevances_dest[j] ^ destination_exp
* relevances_orig[i] ^ origin_exp`, with every NaN or infinite entry of the
full elementwise result replaced by `0.0` (the replacement is applied to the
completed entry value, after the whole product, not to intermediate
factors); consequently the output contains no NaN or infinite entry — in
particular for all finite, non-negative input distances and relevances
(inputs are finite rationals by type in this model; the conclusion needs no
non-negativity hypothesis). -/
theorem compute_gravity_score_spec (g : Gravity) (rf : RF) {n : ℕ}
    (D : Fin n → Fin n → ℚ) (ro rd : Fin n → ℚ) (i j : Fin n) :
    g.compute_gravity_score rf D ro rd i j
      = cleanF (mulF (mulF (g.deterrence rf (D i j)) (powQ rf.rpow (rd j) g.destination_exp))
          (powQ rf.rpow (ro i) g.origin_exp))
    ∧ (g.compute_gravity_score rf D ro rd i j).isnan = false
    ∧ (g.compute_gravity_score rf D ro rd i j).isinf = false := by
  refine ⟨aux_score_entry g rf D ro rd i j, ?_⟩
  exact aux_isfin_not_nan_inf _ (aux_score_isfin g rf D ro rd i j)

/-- C8: `generate` raises (returns `Except.error`) if and only if the
effective output format — after the unknown-format fallback — is `"flows"`
and the tessellation lacks the total-outflow column; with output format
`"probabilities"` the column's absence is not an error.  In the source the
`raise KeyError` sits before the distance matrix, the scores and any
sampling are computed, which the model mirrors by placing the error branch
before those computations. -/
theorem generate_error_iff (g : Gravity) (rf : RF) (dist : ℚ × ℚ → ℚ × ℚ → ℚ)
    {n : ℕ} (tess : Tessellation n) (tic out_format : String) :
    (∃ e, (g.generate rf dist tess tic out_format).2 = Except.error e) ↔
      (effective_out_format out_format = "flows" ∧ tess.tot_outflows = none) := by
  unfold Gravity.generate Gravity.generate_out
  by_cases hc : effective_out_format out_format = "flows" ∧ tess.tot_outflows = none
  · rw [if_pos hc]
    exact ⟨fun _ => hc, fun _ => ⟨_, rfl⟩⟩
  · rw [if_neg hc]
    simp only [hc, iff_false]
    rintro ⟨e, he⟩
    by_cases h1 : g.gravity_type = "globally constrained" <;>
      by_cases h2 : effective_out_format out_format = "flows" <;>
        simp [h1, h2] at he

/-- C9: constructing a `Gravity` with an unknown deterrence-function kind
does not raise — the power-law deterrence function is used (after a printed
warning, a side effect outside this model; `Gravity.init` is total by
construction) — and calling `generate` with an unknown output format does
not raise on that account: it behaves exactly as a call with the `"flows"`
format (after a printed warning). -/
theorem unknown_kind_and_format_fallback (s fmt nm : String) (args : List ℚ)
    (oe de : ℚ) (gt : String) (hs1 : s ≠ "power_law") (hs2 : s ≠ "exponential")
    (hf1 : fmt ≠ "flows") (hf2 : fmt ≠ "probabilities")
    (g : Gravity) (rf : RF) (dist : ℚ × ℚ → ℚ × ℚ → ℚ) {n : ℕ}
    (tess : Tessellation n) (tic : String) :
    (Gravity.init nm s args oe de gt).deterrence_func = DetFunc.power_law
    ∧ g.generate rf dist tess tic fmt = g.generate rf dist tess tic "flows" := by
  constructor
  · unfold Gravity.init
    rw [if_neg hs1, if_neg hs2]
  · have hfmt : effective_out_format fmt = "flows" := by
      unfold effective_out_format
      rw [if_neg]
      rintro (h | h)
      · exact hf1 h
      · exact hf2 h
    have hfl : effective_out_format "flows" = "flows" := rfl
    simp only [Gravity.generate, Gravity.generate_out, hfmt, hfl]

/-- C9 witness: an unknown deterrence kind `"gaussian"` resolves to the
power-law deterrence function, and `generate` with unknown output format
`"matrix"` coincides with `generate` with `"flows"`. -/
theorem unknown_kind_and_format_fallback_w :
    (Gravity.init "Gravity model" "gaussian" [-2] 1 1 "singly constrained").deterrence_func
        = DetFunc.power_law
    ∧ G1.generate rf0 dist0 T1 "tile_ID" "matrix"
        = G1.generate rf0 dist0 T1 "tile_ID" "flows" :=
  unknown_kind_and_format_fallback "gaussian" "matrix" "Gravity model" [-2] 1 1
    "singly constrained" (by decide) (by decide) (by decide) (by decide)
    G1 rf0 dist0 T1 "tile_ID"

/-- C5 counterexample: the claim "no state of the Gravity model object that
outlives the call is mutated by `generate`, and a successful `fit` mutates
only the configuration" is false on the code: `generate` stores the tile-id
column name on the object (`self._tile_id_column = tile_id_column`), and
`fit` leaves `lats_lngs`, `weights` and `tileid2index` set on the object
after returning. -/
theorem generate_mutates_state_cex :
    (G1.generate rf0 dist0 T1 "tile_ID" "probabilities").1 ≠ G1
    ∧ (G1.generate rf0 dist0 T1 "tile_ID" "probabilities").1.tile_id_column = some "tile_ID"
    ∧ G1.tile_id_column = none
    ∧ (G1.fit rf0 dist0 T1 [] solver0).lats_lngs = some [(0, 0), (0, 1), (1, 0)]
    ∧ G1.lats_lngs = none := by
  refine ⟨?_, rfl, rfl, ?_, rfl⟩
  · intro h
    have := congrArg Gravity.tile_id_column h
    simp [Gravity.generate, G1, Gravity.init] at this
  · simp only [Gravity.fit, Gravity.buildTraining]
    simp [T1, List.ofFn_succ]

/-- C5 (amended): `generate`'s only mutation of state that outlives the
call is setting `_tile_id_column` to the given column name — in particular
the configuration (deterrence kind and arguments, exponents, gravity type)
is unchanged — and a successful `fit` mutates the configuration and
additionally persists `lats_lngs`, `weights` and `tileid2index` on the
object (while `X` and `y` are deleted before it returns). -/
theorem generate_fit_state_effects (g : Gravity) (rf : RF)
    (dist : ℚ × ℚ → ℚ × ℚ → ℚ) {n : ℕ} (tess : Tessellation n) (tic fmt : String)
    {m : ℕ} (tessF : Tessellation m) (flows : List FlowRecord)
    (solver : List (List F) → List ℚ → List ℚ) :
    (g.generate rf dist tess tic fmt).1 = { g with tile_id_column := some tic }
    ∧ (g.fit rf dist tessF flows solver).name = g.name
    ∧ (g.fit rf dist tessF flows solver).deterrence_func_type = g.deterrence_func_type
    ∧ (g.fit rf dist tessF flows solver).deterrence_func = g.deterrence_func
    ∧ (g.fit rf dist tessF flows solver).gravity_type = g.gravity_type
    ∧ (g.fit rf dist tessF flows solver).tile_id_column = g.tile_id_column
    ∧ (g.fit rf dist tessF flows solver).lats_lngs = some (List.ofFn tessF.centroid)
    ∧ (g.fit rf dist tessF flows solver).weights = some (List.ofFn tessF.relevance)
    ∧ (g.fit rf dist tessF flows solver).tileid2index = some (List.ofFn tessF.tile_id)
    ∧ (g.fit rf dist tessF flows solver).Xattr = none
    ∧ (g.fit rf dist tessF flows solver).yattr = none := by
  refine ⟨rfl, ?_⟩
  unfold Gravity.fit
  by_cases h : g.gravity_type = "globally constrained" <;> simp [h]

/-- C1 (amended): for a singly constrained configuration, the matrix wrapped
by `generate` with `out_format="probabilities"` is the transpose of the
column-wise normalization of the raw gravity score matrix `P`
(`np.transpose(P / np.sum(P, axis=0))`): entry `(i, j)` equals
`P[j][i] / sum_k P[k][i]`.  Every row `i` whose corresponding column sum
`sum_k P[k][i]` is nonzero sums to 1; when column `i` of `P` is entirely
zero, row `i` of the result is all NaN (`0/0`), not all zero. -/
theorem singly_probabilities_colnorm (g : Gravity) (rf : RF)
    (dist : ℚ × ℚ → ℚ × ℚ → ℚ) {n : ℕ} (tess : Tessellation n) (tic : String)
    (hg : g.gravity_type ≠ "globally constrained") :
    probsMatrix (g.generate rf dist tess tic "probabilities")
      = some (fun i j => divF (generation_score g rf dist tess j i)
          (colSumF (generation_score g rf dist tess) i))
    ∧ (∀ i s, colSumF (generation_score g rf dist tess) i = F.fin s → s ≠ 0 →
        rowSumF (fun a b => divF (generation_score g rf dist tess b a)
          (colSumF (generation_score g rf dist tess) a)) i = F.fin 1)
    ∧ (∀ i, (∀ k, generation_score g rf dist tess k i = F.fin 0) →
        ∀ j, divF (generation_score g rf dist tess j i)
          (colSumF (generation_score g rf dist tess) i) = F.nan) := by
  have hfin : ∀ a b, (generation_score g rf dist tess a b).isfinite = true := by
    intro a b
    unfold generation_score
    exact aux_score_isfin _ _ _ _ _ a b
  refine ⟨aux_probs_singly g rf dist tess tic hg, ?_, ?_⟩
  · intro i s hcol hs
    have hsum : colSumF (generation_score g rf dist tess) i
        = F.fin ((List.ofFn fun k => (generation_score g rf dist tess k i).toQ).sum) := by
      unfold colSumF
      rw [aux_sumF_fin]
      · rw [List.map_ofFn]
        rfl
      · intro x hx
        obtain ⟨k, hk⟩ := (List.mem_ofFn _ _).mp hx
        exact hk ▸ hfin k i
    have hseq : s = (List.ofFn fun k => (generation_score g rf dist tess k i).toQ).sum :=
      F.fin.inj (hcol.symm.trans hsum)
    have hdiv : ∀ j, divF (generation_score g rf dist tess j i)
        (colSumF (generation_score g rf dist tess) i)
        = F.fin ((generation_score g rf dist tess j i).toQ / s) := by
      intro j
      obtain ⟨q, hq⟩ : ∃ q, generation_score g rf dist tess j i = F.fin q :=
        ⟨_, aux_isfin_toQ _ (hfin j i)⟩
      rw [hcol, hq]
      show divF (F.fin q) (F.fin s) = F.fin ((F.fin q).toQ / s)
      simp only [divF, F.toQ]
      rw [if_neg hs]
    unfold rowSumF
    have hrow : (List.ofFn fun b => divF (generation_score g rf dist tess b i)
          (colSumF (generation_score g rf dist tess) i))
        = List.ofFn fun b => F.fin ((generation_score g rf dist tess b i).toQ / s) := by
      congr 1
      funext b
      exact hdiv b
    rw [hrow, aux_sumF_fin]
    · congr 1
      rw [List.map_ofFn]
      have h2 : (F.toQ ∘ fun b => F.fin ((generation_score g rf dist tess b i).toQ / s))
          = fun b => (generation_score g rf dist tess b i).toQ / s := rfl
      have h3 : (List.ofFn fun b => (generation_score g rf dist tess b i).toQ / s)
          = (List.ofFn fun b => (generation_score g rf dist tess b i).toQ).map
              (fun q => q / s) := by
        rw [List.map_ofFn]
        rfl
      rw [h2, h3, aux_sum_div, ← hseq, div_self hs]
    · intro x hx
      obtain ⟨k, hk⟩ := (List.mem_ofFn _ _).mp hx
      rw [← hk]
      rfl
  · intro i hall j
    have hcol0 : colSumF (generation_score g rf dist tess) i = F.fin 0 := by
      unfold colSumF
      have hz : (List.ofFn fun k => generation_score g rf dist tess k i)
          = List.ofFn (fun _ : Fin n => F.fin 0) := by
        congr 1
        funext k
        exact hall k
      rw [hz, aux_sumF_fin]
      · simp [List.map_ofFn, F.toQ, List.ofFn_const, List.sum_replicate]
      · intro x hx
        obtain ⟨k, hk⟩ := (List.mem_ofFn _ _).mp hx
        rw [← hk]
        rfl
    rw [hall j, hcol0]
    simp [divF]

theorem aux_P1_table : ∀ i j : Fin 3,
    generation_score G1 rf0 dist0 T1 i j = if i = j then F.fin 0 else F.fin (T1.relevance i) := by
  intro i j
  fin_cases i <;> fin_cases j <;>
    norm_num [generation_score, G1, Gravity.init, Gravity.compute_gravity_score,
      Gravity.deterrence, powerlaw_deterrence_func, powQ, zpowQ, npowQ, putmask_inf,
      putmask_nan, mulF, T1, F.isnan, F.isinf, compute_distance_matrix, pairWrites, dist0,
      List.finRange, List.range, List.range.loop, List.filter, List.flatMap, List.foldl,
      Fin.lt_def, Fin.ext_iff, Prod.ext_iff]

theorem aux_P2_table : ∀ i j : Fin 3,
    generation_score G2 rf0 dist0 T2 i j
      = if i = 0 ∨ j = 0 ∨ i = j then F.fin 0 else F.fin 1 := by
  intro i j
  fin_cases i <;> fin_cases j <;>
    norm_num [generation_score, G2, Gravity.init, Gravity.compute_gravity_score,
      Gravity.deterrence, powerlaw_deterrence_func, powQ, zpowQ, npowQ, putmask_inf,
      putmask_nan, mulF, T2, F.isnan, F.isinf, compute_distance_matrix, pairWrites, dist0,
      List.finRange, List.range, List.range.loop, List.filter, List.flatMap, List.foldl,
      Fin.lt_def, Fin.ext_iff, Prod.ext_iff]

theorem aux_P1_colsum0 : colSumF (generation_score G1 rf0 dist0 T1) 0 = F.fin 6 := by
  simp only [colSumF, sumF, List.ofFn_succ, List.ofFn_zero, List.foldr, aux_P1_table]
  norm_num [T1, addF, Fin.ext_iff]

theorem aux_P1_rowsum0 : rowSumF (generation_score G1 rf0 dist0 T1) 0 = F.fin 2 := by
  simp only [rowSumF, sumF, List.ofFn_succ, List.ofFn_zero, List.foldr, aux_P1_table]
  norm_num [T1, addF, Fin.ext_iff]

theorem aux_P2_col0 : ∀ k : Fin 3, generation_score G2 rf0 dist0 T2 k 0 = F.fin 0 := by
  intro k
  rw [aux_P2_table]
  simp

theorem aux_P2_colsum0 : colSumF (generation_score G2 rf0 dist0 T2) 0 = F.fin 0 := by
  simp only [colSumF, sumF, List.ofFn_succ, List.ofFn_zero, List.foldr, aux_P2_col0]
  norm_num [addF, Fin.ext_iff]

/-- C1 counterexample: the claim that under a singly constrained
configuration the `probabilities` output is the row-wise normalization of
the raw score matrix `P`, with all-zero rows of `P` giving all-zero result
rows, is false on the code.  With relevances `[1, 2, 4]`, origin exponent
`1`, destination exponent `0`, power-law deterrence `[-2]` and all
off-diagonal distances `1`, the row-normalized value `P[0][1] / sum_j
P[0][j]` is `1/2` but `generate` returns `1/3` at entry `(0, 1)`; and with
relevances `[0, 1, 1]` and the default exponents, row `0` of `P` is all
zero but entry `(0, 0)` of the result is NaN (`0/0`), not `0`. -/
theorem singly_probabilities_rownorm_cex :
    (probsMatrix (G1.generate rf0 dist0 T1 "tile_ID" "probabilities")).map (fun m => m 0 1)
        = some (F.fin (1/3))
    ∧ divF (generation_score G1 rf0 dist0 T1 0 1)
        (rowSumF (generation_score G1 rf0 dist0 T1) 0) = F.fin (1/2)
    ∧ F.fin ((1 : ℚ)/3) ≠ F.fin (1/2)
    ∧ generation_score G2 rf0 dist0 T2 0 0 = F.fin 0
    ∧ generation_score G2 rf0 dist0 T2 0 1 = F.fin 0
    ∧ generation_score G2 rf0 dist0 T2 0 2 = F.fin 0
    ∧ (probsMatrix (G2.generate rf0 dist0 T2 "tile_ID" "probabilities")).map (fun m => m 0 0)
        = some F.nan
    ∧ F.nan ≠ F.fin 0 := by
  have hg1 : G1.gravity_type ≠ "globally constrained" := by decide
  have hg2 : G2.gravity_type ≠ "globally constrained" := by decide
  refine ⟨?_, ?_, by norm_num, ?_, ?_, ?_, ?_, by simp⟩
  · rw [aux_probs_singly G1 rf0 dist0 T1 "tile_ID" hg1]
    simp only [Option.map_some']
    rw [aux_P1_table 1 0, aux_P1_colsum0]
    norm_num [T1, divF, Fin.ext_iff]
  · rw [aux_P1_table 0 1, aux_P1_rowsum0]
    norm_num [T1, divF, Fin.ext_iff]
  · rw [aux_P2_table]
    simp
  · rw [aux_P2_table]
    simp
  · rw [aux_P2_table]
    simp
  · rw [aux_probs_singly G2 rf0 dist0 T2 "tile_ID" hg2]
    simp only [Option.map_some']
    rw [aux_P2_table 0 0, aux_P2_colsum0]
    simp [divF]

/-- C1 witness: the amended theorem applied to concrete singly constrained
inputs — the returned matrix is the transpose of the column-normalized
scores, row `0` (whose score column sums to `6 ≠ 0`) sums to `1`, and for
the tessellation whose score column `0` is all zero the entries of result
row `0` are NaN. -/
theorem singly_probabilities_colnorm_w :
    probsMatrix (G1.generate rf0 dist0 T1 "tile_ID" "probabilities")
      = some (fun i j => divF (generation_score G1 rf0 dist0 T1 j i)
          (colSumF (generation_score G1 rf0 dist0 T1) i))
    ∧ rowSumF (fun a b => divF (generation_score G1 rf0 dist0 T1 b a)
        (colSumF (generation_score G1 rf0 dist0 T1) a)) 0 = F.fin 1
    ∧ divF (generation_score G2 rf0 dist0 T2 1 0)
        (colSumF (generation_score G2 rf0 dist0 T2) 0) = F.nan := by
  have h1 := singly_probabilities_colnorm G1 rf0 dist0 T1 "tile_ID" (by decide)
  have h2 := singly_probabilities_colnorm G2 rf0 dist0 T2 "tile_ID" (by decide)
  exact ⟨h1.1, h1.2.1 0 6 aux_P1_colsum0 (by norm_num), h2.2.2 0 aux_P2_col0 1⟩

/-- C6: during calibration a flow record is skipped — state unchanged, no
exception (the model's `update_training_set` is a total function, matching
the source's caught `KeyError`s and early `return`s) — if and only if its
origin equals its destination, or its origin or destination id is absent
from the tessellation's id-to-index map, or its destination relevance is
`≤ 0`; otherwise the record extends the design matrix. -/
theorem update_training_set_skip_iff (g : Gravity) (rf : RF)
    (dist : ℚ × ℚ → ℚ × ℚ → ℚ) (st : FitState) (rec : FlowRecord) :
    update_training_set g rf dist st rec = st ↔
      (rec.origin = rec.destination
        ∨ dictLookup st.tiles rec.origin = none
        ∨ dictLookup st.tiles rec.destination = none
        ∨ ∃ j, dictLookup st.tiles rec.destination = some j ∧ st.weights.getD j 0 ≤ 0) := by
  unfold update_training_set
  by_cases h1 : rec.origin = rec.destination
  · simp [h1]
  · rw [if_neg h1]
    cases ho : dictLookup st.tiles rec.origin with
    | none => simp [h1, ho]
    | some io =>
      cases hd : dictLookup st.tiles rec.destination with
      | none => simp [h1, ho, hd]
      | some idst =>
        dsimp only
        by_cases hw : st.weights.getD idst 0 ≤ 0
        · rw [if_pos hw]
          simp only [true_iff]
          exact Or.inr (Or.inr (Or.inr ⟨idst, rfl, hw⟩))
        · rw [if_neg hw]
          constructor
          · intro heq
            exfalso
            have hx := congrArg (fun t => t.X.length) heq
            simp at hx
          · rintro (h | h | h | ⟨j, hj, hwj⟩)
            · exact absurd h h1
            · exact Option.noConfusion h
            · exact Option.noConfusion h
            · injection hj with hj
              subst hj
              exact absurd hwj hw

/-- C6 is stated without premises, but record a concrete instance anyway:
a self-loop is skipped while a valid record is not. -/
theorem update_training_set_skip_iff_w :
    update_training_set G1 rf0 dist0 st0 { origin := 10, destination := 10, flow := 9 } = st0
    ∧ update_training_set G1 rf0 dist0 st0 { origin := 10, destination := 99, flow := 9 } = st0 := by
  constructor
  · exact (update_training_set_skip_iff G1 rf0 dist0 st0
      { origin := 10, destination := 10, flow := 9 }).mpr (Or.inl rfl)
  · exact (update_training_set_skip_iff G1 rf0 dist0 st0
      { origin := 10, destination := 99, flow := 9 }).mpr
        (Or.inr (Or.inr (Or.inl (by decide))))

/-- C3: for a calibration record passing the validity filters (origin and
destination distinct and both present in the index, destination relevance
positive), exactly one design row and one response are appended: under the
globally constrained regime the row is `[1, log(origin_relevance),
log(destination_relevance), deterrence_term]`; under the singly constrained
regime it is `[1]` followed by the one-hot vector `ci` of width equal to
the total number of locations with a single `1` at the origin's index,
then `log(destination_relevance)` and the deterrence term; the term is the
negated distance for the exponential kind and `log(distance)` for the
power-law kind; the response is the record's flow count. -/
theorem update_training_set_row_spec (g : Gravity) (rf : RF)
    (dist : ℚ × ℚ → ℚ × ℚ → ℚ) (st : FitState) (rec : FlowRecord) (io idst : ℕ)
    (hne : rec.origin ≠ rec.destination)
    (ho : dictLookup st.tiles rec.origin = some io)
    (hd : dictLookup st.tiles rec.destination = some idst)
    (hw : 0 < st.weights.getD idst 0) :
    (update_training_set g rf dist st rec).y = st.y ++ [rec.flow]
    ∧ (g.gravity_type = "globally constrained" → g.deterrence_func_type = "exponential" →
        (update_training_set g rf dist st rec).X = st.X ++
          [[F.fin 1, logF rf.rlog (F.fin (st.weights.getD io 0)),
            logF rf.rlog (F.fin (st.weights.getD idst 0)),
            F.fin (-(dist (st.lats_lngs.getD io (0, 0)) (st.lats_lngs.getD idst (0, 0))))]])
    ∧ (g.gravity_type = "globally constrained" → g.deterrence_func_type = "power_law" →
        (update_training_set g rf dist st rec).X = st.X ++
          [[F.fin 1, logF rf.rlog (F.fin (st.weights.getD io 0)),
            logF rf.rlog (F.fin (st.weights.getD idst 0)),
            logF rf.rlog (F.fin (dist (st.lats_lngs.getD io (0, 0))
              (st.lats_lngs.getD idst (0, 0))))]])
    ∧ (g.gravity_type ≠ "globally constrained" → g.deterrence_func_type = "exponential" →
        (update_training_set g rf dist st rec).X = st.X ++
          [[F.fin 1] ++ ci io st.tiles.length ++
            [logF rf.rlog (F.fin (st.weights.getD idst 0)),
             F.fin (-(dist (st.lats_lngs.getD io (0, 0)) (st.lats_lngs.getD idst (0, 0))))]])
    ∧ (g.gravity_type ≠ "globally constrained" → g.deterrence_func_type = "power_law" →
        (update_training_set g rf dist st rec).X = st.X ++
          [[F.fin 1] ++ ci io st.tiles.length ++
            [logF rf.rlog (F.fin (st.weights.getD idst 0)),
             logF rf.rlog (F.fin (dist (st.lats_lngs.getD io (0, 0))
               (st.lats_lngs.getD idst (0, 0))))]])
    ∧ (ci io st.tiles.length).length = st.tiles.length
    ∧ (∀ k, k < st.tiles.length →
        (ci io st.tiles.length).getD k (F.fin 0) = if k = io then F.fin 1 else F.fin 0) := by
  have hexp_ne : ("power_law" : String) ≠ "exponential" := by decide
  unfold update_training_set
  rw [if_neg hne, ho, hd]
  dsimp only
  rw [if_neg (not_le.mpr hw)]
  refine ⟨?_, ?_, ?_, ?_, ?_, ?_, ?_⟩
  · by_cases h2 : g.deterrence_func_type = "exponential" <;>
      by_cases h3 : g.gravity_type = "globally constrained" <;> simp [h2, h3]
  · intro h3 h2
    rw [if_pos h3, if_pos h2]
    exact rfl
  · intro h3 h2
    rw [if_pos h3, if_neg (h2 ▸ hexp_ne)]
    exact rfl
  · intro h3 h2
    rw [if_neg h3, if_pos h2]
  · intro h3 h2
    rw [if_neg h3, if_neg (h2 ▸ hexp_ne)]
  · simp [ci]
  · intro k hk
    simp [ci, List.getD_eq_getElem?_getD, List.getElem?_map, List.getElem?_range hk]

/-- C3 witness: a concrete valid record appended under the singly
constrained power-law configuration, and the one-hot block evaluated. -/
theorem update_training_set_row_spec_w :
    (update_training_set G1 rf0 dist0 st0 { origin := 10, destination := 11, flow := 9 }).y
        = st0.y ++ [(9 : ℚ)]
    ∧ (update_training_set G1 rf0 dist0 st0 { origin := 10, destination := 11, flow := 9 }).X
        = st0.X ++ [[F.fin 1] ++ ci 0 st0.tiles.length ++
            [logF rf0.rlog (F.fin (st0.weights.getD 1 0)),
             logF rf0.rlog (F.fin (dist0 (st0.lats_lngs.getD 0 (0, 0))
               (st0.lats_lngs.getD 1 (0, 0))))]]
    ∧ (ci 0 st0.tiles.length).getD 0 (F.fin 0) = F.fin 1 := by
  have h := update_training_set_row_spec G1 rf0 dist0 st0
    { origin := 10, destination := 11, flow := 9 } 0 1 (by decide) (by decide) (by decide)
    (by norm_num [st0])
  refine ⟨h.1, h.2.2.2.2.1 (by decide) rfl, ?_⟩
  have hk := h.2.2.2.2.2.2 0 (by norm_num [st0])
  rw [hk]
  simp

/-- C10: only the destination's relevance is checked during calibration: a
record whose ids are valid and distinct and whose destination relevance is
positive is appended even when the origin's relevance is `≤ 0`; under the
globally constrained regime the appended row then carries
`log(origin_relevance)` at position 1, which is not a finite value
(`log 0 = -∞`, `log` of a negative number is NaN). -/
theorem calibration_ignores_origin_relevance (g : Gravity) (rf : RF)
    (dist : ℚ × ℚ → ℚ × ℚ → ℚ) (st : FitState) (rec : FlowRecord) (io idst : ℕ)
    (hne : rec.origin ≠ rec.destination)
    (ho : dictLookup st.tiles rec.origin = some io)
    (hd : dictLookup st.tiles rec.destination = some idst)
    (hw : 0 < st.weights.getD idst 0)
    (hwo : st.weights.getD io 0 ≤ 0)
    (hglob : g.gravity_type = "globally constrained") :
    ((update_training_set g rf dist st rec).X).length = st.X.length + 1
    ∧ (update_training_set g rf dist st rec).y = st.y ++ [rec.flow]
    ∧ (((update_training_set g rf dist st rec).X).getLastD []).getD 1 F.nan
        = logF rf.rlog (F.fin (st.weights.getD io 0))
    ∧ (logF rf.rlog (F.fin (st.weights.getD io 0))).isfinite = false := by
  have hnotfin : (logF rf.rlog (F.fin (st.weights.getD io 0))).isfinite = false := by
    unfold logF
    dsimp only
    rw [if_neg (not_lt.mpr hwo)]
    by_cases h0 : st.weights.getD io 0 = 0
    · rw [if_pos h0]
      rfl
    · rw [if_neg h0]
      rfl
  unfold update_training_set
  rw [if_neg hne, ho, hd]
  dsimp only
  rw [if_neg (not_le.mpr hw), if_pos hglob]
  refine ⟨by simp, rfl, ?_, hnotfin⟩
  by_cases h2 : g.deterrence_func_type = "exponential" <;>
    simp [h2, List.getLastD_concat]

/-- C10 witness: with origin relevance `0` (state `st1`), the record
`10 → 11` is still appended under the globally constrained model `G3`, and
`log 0` is not finite. -/
theorem calibration_ignores_origin_relevance_w :
    ((update_training_set G3 rf0 dist0 st1 { origin := 10, destination := 11, flow := 9 }).X).length
        = st1.X.length + 1
    ∧ (logF rf0.rlog (F.fin (st1.weights.getD 0 0))).isfinite = false := by
  have h := calibration_ignores_origin_relevance G3 rf0 dist0 st1
    { origin := 10, destination := 11, flow := 9 } 0 1 (by decide) (by decide) (by decide)
    (by norm_num [st1]) (by norm_num [st1]) rfl
  exact ⟨h.1, h.2.2.2⟩

/-- C4: after a successful fit the configuration is updated by coefficient
position: globally constrained sets origin exponent to coefficient 1,
destination exponent to coefficient 2 and the deterrence argument list to
the singleton of coefficient 3; singly constrained fixes the origin
exponent at `1.0` and takes the second-to-last and last coefficients for
destination exponent and deterrence argument (`params[-2]`, `params[-1]`;
the coefficient vector returned by the solver has one entry per design
column, so positional access is modelled by `List.getD`). -/
theorem fit_coefficient_extraction (g : Gravity) (rf : RF)
    (dist : ℚ × ℚ → ℚ × ℚ → ℚ) {n : ℕ} (tess : Tessellation n)
    (flows : List FlowRecord) (solver : List (List F) → List ℚ → List ℚ) :
    (g.gravity_type = "globally constrained" →
      (g.fit rf dist tess flows solver).origin_exp
          = (solver (g.buildTraining rf dist tess flows).X
              (g.buildTraining rf dist tess flows).y).getD 1 0
      ∧ (g.fit rf dist tess flows solver).destination_exp
          = (solver (g.buildTraining rf dist tess flows).X
              (g.buildTraining rf dist tess flows).y).getD 2 0
      ∧ (g.fit rf dist tess flows solver).deterrence_func_args
          = [(solver (g.buildTraining rf dist tess flows).X
              (g.buildTraining rf dist tess flows).y).getD 3 0])
    ∧ (g.gravity_type ≠ "globally constrained" →
      (g.fit rf dist tess flows solver).origin_exp = 1
      ∧ (g.fit rf dist tess flows solver).destination_exp
          = (solver (g.buildTraining rf dist tess flows).X
              (g.buildTraining rf dist tess flows).y).getD
            ((solver (g.buildTraining rf dist tess flows).X
              (g.buildTraining rf dist tess flows).y).length - 2) 0
      ∧ (g.fit rf dist tess flows solver).deterrence_func_args
          = [(solver (g.buildTraining rf dist tess flows).X
              (g.buildTraining rf dist tess flows).y).getD
            ((solver (g.buildTraining rf dist tess flows).X
              (g.buildTraining rf dist tess flows).y).length - 1) 0]) := by
  constructor
  · intro h
    unfold Gravity.fit
    dsimp only
    rw [if_pos h]
    exact ⟨rfl, rfl, rfl⟩
  · intro h
    unfold Gravity.fit
    dsimp only
    rw [if_neg h]
    exact ⟨rfl, rfl, rfl⟩

/-- C4 witness: with the concrete solver returning `[5, 6, 7, 8]`, the
globally constrained fit sets exponents `(6, 7)` and deterrence `[8]`, and
the singly constrained fit sets origin exponent `1`, destination exponent
`7` (second to last) and deterrence `[8]` (last). -/
theorem fit_coefficient_extraction_w :
    (G3.fit rf0 dist0 T1 [] solver0).origin_exp = 6
    ∧ (G3.fit rf0 dist0 T1 [] solver0).destination_exp = 7
    ∧ (G3.fit rf0 dist0 T1 [] solver0).deterrence_func_args = [8]
    ∧ (G1.fit rf0 dist0 T1 [] solver0).origin_exp = 1
    ∧ (G1.fit rf0 dist0 T1 [] solver0).destination_exp = 7
    ∧ (G1.fit rf0 dist0 T1 [] solver0).deterrence_func_args = [8] := by
  have hG := fit_coefficient_extraction G3 rf0 dist0 T1 [] solver0
  have hS := fit_coefficient_extraction G1 rf0 dist0 T1 [] solver0
  have h3 := hG.1 rfl
  have h1 := hS.2 (by decide)
  refine ⟨h3.1.trans rfl, h3.2.1.trans rfl, h3.2.2.trans rfl,
    h1.1, h1.2.1.trans rfl, h1.2.2.trans rfl⟩

theorem aux_pairWrites_lt {n : ℕ} (origins : List (Fin n)) :
    ∀ p ∈ pairWrites n origins, p.1 < p.2 := by
  intro p hp
  unfold pairWrites at hp
  rw [List.mem_flatMap] at hp
  obtain ⟨i, _, hp⟩ := hp
  rw [List.mem_map] at hp
  obtain ⟨j, hj, rfl⟩ := hp
  rw [List.mem_filter] at hj
  simpa using hj.2

theorem aux_foldl_dist (dist : ℚ × ℚ → ℚ × ℚ → ℚ) {n : ℕ} (tess : Tessellation n)
    (l : List (Fin n × Fin n)) (hl : ∀ p ∈ l, p.1 < p.2) (D : Fin n → Fin n → ℚ)
    (hsym : ∀ a b, D a b = D b a) (hdiag : ∀ a, D a a = 0) :
    (∀ a b, l.foldl (fun D p => fun a b =>
        if (a = p.1 ∧ b = p.2) ∨ (a = p.2 ∧ b = p.1) then
          dist (tess.centroid p.1) (tess.centroid p.2) else D a b) D a b
      = l.foldl (fun D p => fun a b =>
        if (a = p.1 ∧ b = p.2) ∨ (a = p.2 ∧ b = p.1) then
          dist (tess.centroid p.1) (tess.centroid p.2) else D a b) D b a)
    ∧ (∀ a, l.foldl (fun D p => fun a b =>
        if (a = p.1 ∧ b = p.2) ∨ (a = p.2 ∧ b = p.1) then
          dist (tess.centroid p.1) (tess.centroid p.2) else D a b) D a a = 0) := by
  induction l generalizing D with
  | nil => exact ⟨hsym, hdiag⟩
  | cons p t ih =>
    have hp : p.1 < p.2 := hl p (by simp)
    refine ih (fun q hq => hl q (by simp [hq])) _ ?_ ?_
    · intro a b
      dsimp only
      by_cases hc : (a = p.1 ∧ b = p.2) ∨ (a = p.2 ∧ b = p.1)
      · rw [if_pos hc, if_pos (by tauto)]
      · rw [if_neg hc, if_neg (by tauto)]
        exact hsym a b
    · intro a
      dsimp only
      rw [if_neg, hdiag a]
      rintro (⟨h1, h2⟩ | ⟨h1, h2⟩) <;> exact absurd (h1 ▸ h2 ▸ hp) (lt_irrefl _)

theorem aux_count_map_pair {n : ℕ} (i : Fin n) (l : List (Fin n)) (b : Fin n) :
    (l.map (fun j => (i, j))).count (i, b) = l.count b := by
  induction l with
  | nil => rfl
  | cons x t ih =>
    simp only [List.map_cons, List.count_cons, ih]
    congr 1
    by_cases hxb : x = b
    · simp [hxb]
    · simp [hxb, Prod.ext_iff]

theorem aux_count_block {n : ℕ} (a b i : Fin n) (hab : a < b) :
    ((((List.finRange n).filter (fun j => i < j)).map (fun j => (i, j))).count (a, b))
      = if i = a then 1 else 0 := by
  by_cases hia : i = a
  · subst hia
    rw [if_pos rfl]
    have hmem : b ∈ (List.finRange n).filter (fun j => i < j) := by
      rw [List.mem_filter]
      exact ⟨List.mem_finRange b, by simpa using hab⟩
    exact (aux_count_map_pair i _ b).trans (List.count_eq_one_of_mem
      (List.Nodup.filter _ (List.nodup_finRange n)) hmem)
  · rw [if_neg hia]
    apply List.count_eq_zero_of_not_mem
    intro hmem
    rw [List.mem_map] at hmem
    obtain ⟨j, _, hj⟩ := hmem
    exact hia (congrArg Prod.fst hj)

theorem aux_count_pairWrites {n : ℕ} (origins : List (Fin n)) (a b : Fin n) (hab : a < b) :
    (pairWrites n origins).count (a, b) = origins.count a := by
  induction origins with
  | nil => rfl
  | cons i t ih =>
    have hsplit : pairWrites n (i :: t)
        = (((List.finRange n).filter (fun j => i < j)).map (fun j => (i, j)))
            ++ pairWrites n t := by
      unfold pairWrites
      rw [List.flatMap_cons]
    rw [hsplit, List.count_append, aux_count_block a b i hab, ih, List.count_cons]
    simp only [beq_iff_eq]
    by_cases hia : i = a
    · rw [if_pos hia]
      omega
    · rw [if_neg hia]
      omega

theorem aux_count_pairWrites_swap {n : ℕ} (origins : List (Fin n)) (a b : Fin n)
    (hab : a < b) : (pairWrites n origins).count (b, a) = 0 := by
  apply List.count_eq_zero_of_not_mem
  intro hmem
  have := aux_pairWrites_lt origins (b, a) hmem
  exact absurd (lt_trans hab this) (lt_irrefl a)

/-- C7 (amended): for every tessellation and every duplicate-free list of
origin indices, the matrix built by `compute_distance_matrix` is square (by
type), symmetric and zero on the diagonal; the unordered pair `{a, b}` with
`a < b` is computed and stored exactly once when `a` is among the origins
and zero times otherwise — in particular with the full origin set
(`origins = 0..n-1`, as `generate` passes), every unordered pair of
distinct indices is written exactly once. -/
theorem distance_matrix_properties (dist : ℚ × ℚ → ℚ × ℚ → ℚ) {n : ℕ}
    (tess : Tessellation n) (origins : List (Fin n)) (hnd : origins.Nodup) :
    (∀ i j, compute_distance_matrix dist tess origins i j
        = compute_distance_matrix dist tess origins j i)
    ∧ (∀ i, compute_distance_matrix dist tess origins i i = 0)
    ∧ (∀ a b : Fin n, a < b →
        pairWriteCount n origins a b = if a ∈ origins then 1 else 0)
    ∧ (∀ a b : Fin n, a < b → pairWriteCount n (List.finRange n) a b = 1) := by
  have hmain := aux_foldl_dist dist tess (pairWrites n origins)
    (aux_pairWrites_lt origins) (fun _ _ => 0) (fun _ _ => rfl) (fun _ => rfl)
  refine ⟨hmain.1, hmain.2, ?_, ?_⟩
  · intro a b hab
    unfold pairWriteCount
    rw [aux_count_pairWrites origins a b hab, aux_count_pairWrites_swap origins a b hab]
    by_cases hmem : a ∈ origins
    · rw [if_pos hmem, List.count_eq_one_of_mem hnd hmem]
    · rw [if_neg hmem, List.count_eq_zero_of_not_mem hmem]
  · intro a b hab
    unfold pairWriteCount
    rw [aux_count_pairWrites (List.finRange n) a b hab,
      aux_count_pairWrites_swap (List.finRange n) a b hab,
      List.count_eq_one_of_mem (List.nodup_finRange n) (List.mem_finRange a)]

/-- C7 witness: the amended theorem at a concrete 3-location tessellation
with the full origin list. -/
theorem distance_matrix_properties_w :
    compute_distance_matrix dist0 T1 (List.finRange 3) 0 1
        = compute_distance_matrix dist0 T1 (List.finRange 3) 1 0
    ∧ compute_distance_matrix dist0 T1 (List.finRange 3) 2 2 = 0
    ∧ pairWriteCount 3 (List.finRange 3) 0 2 = 1 := by
  have h := distance_matrix_properties dist0 T1 (List.finRange 3) (List.nodup_finRange 3)
  exact ⟨h.1 0 1, h.2.1 2, h.2.2.2 0 2 (by decide)⟩

/-- C7 counterexample: the claim quantifies over every set of origin
indices, but with two locations and origin set `{1}` the loop body never
runs (`range(2, 2)` is empty), so the unordered pair `{0, 1}` is written
zero times, not exactly once. -/
theorem distance_matrix_writes_cex :
    pairWriteCount 2 [(1 : Fin 2)] 0 1 = 0
    ∧ (0 : Fin 2) ≠ 1
    ∧ (0 : ℕ) ≠ 1 := by decide

end Skmob
